import Mathlib

/-! Verification of the line-stream transformer `process_text_file` in
`src/app.py` of the anafasutil repository.  Lines are modelled as lists of
characters (`Line`), the caller-supplied target-id set as a `Finset ℤ`, and
the real numbers flowing through the float pipeline as exact rationals. -/

abbrev Line := List Char

/-- Characters treated as whitespace by Python's `str.strip()` and
`str.isspace()` (ASCII range; exotic Unicode whitespace is not modelled). -/
def isSpaceChar (c : Char) : Bool :=
  c == ' ' || c == '\t' || c == '\n' || c == '\r' || c == '\x0b' || c == '\x0c'

/-- Model of Python `str.strip()` with no argument: remove leading and
trailing whitespace. -/
def strip (s : Line) : Line :=
  ((s.dropWhile isSpaceChar).reverse.dropWhile isSpaceChar).reverse

/-- Model of `rtrim` in `app.py`: `s.rstrip(' ')`, removing trailing spaces
only. -/
def rtrim (s : Line) : Line :=
  (s.reverse.dropWhile (fun c => c == ' ')).reverse

/-- Model of `is_blank` in `app.py`: Python `s.isspace()`, true iff `s` is
nonempty and consists of whitespace only. -/
def is_blank (s : Line) : Bool :=
  !s.isEmpty && s.all isSpaceChar

/-- Model of Python `str.startswith`: `startsWith l p` is true iff `p` is an
initial segment of `l`. -/
def startsWith : Line → Line → Bool
  | _, [] => true
  | [], _ :: _ => false
  | c :: l, p :: ps => c == p && startsWith l ps

/-- Model of the Python slice `l[a:b]` for `a ≤ b`: the characters at
positions `a, …, b-1`, clamped to the length of the list. -/
def pySlice (l : Line) (a b : Nat) : Line :=
  (l.take b).drop a

/-- Numeric value of an ASCII digit character. -/
def digitVal (c : Char) : Nat := c.toNat - 48

/-- Consume a maximal run of ASCII digits, allowing single underscores between
digits as Python's numeric literals do; returns the accumulated value, the
number of digits consumed and the unconsumed remainder, or `none` when an
underscore is not followed by a digit. -/
def runAux (acc cnt : Nat) : List Char → Option (Nat × Nat × List Char)
  | [] => some (acc, cnt, [])
  | [c] =>
    if c == '_' then none
    else if c.isDigit then some (acc * 10 + digitVal c, cnt + 1, [])
    else some (acc, cnt, [c])
  | c :: c2 :: rest =>
    if c == '_' then
      if c2.isDigit then runAux (acc * 10 + digitVal c2) (cnt + 1) rest else none
    else if c.isDigit then runAux (acc * 10 + digitVal c) (cnt + 1) (c2 :: rest)
    else some (acc, cnt, c :: c2 :: rest)

/-- Consume a digit run that must begin with a digit. -/
def takeRun (s : List Char) : Option (Nat × Nat × List Char) :=
  match s with
  | c :: rest => if c.isDigit then runAux (digitVal c) 1 rest else none
  | [] => none

/-- Parse a digits-with-underscores run that must span the whole input. -/
def natPartVal (s : List Char) : Option Nat :=
  match takeRun s with
  | some (v, _, rest) => if rest.isEmpty then some v else none
  | none => none

/-- Model of Python `int(s)` for strings: strip whitespace, then an optional
sign followed by ASCII digits with optional single underscores between digits
(non-ASCII digit forms are not modelled).  `none` models the `ValueError`
caught by the `try`/`except` handlers in `app.py`. -/
def parseIntPy (s : Line) : Option ℤ :=
  match strip s with
  | [] => none
  | c :: rest =>
    if c == '+' then (natPartVal rest).map (fun n => (n : ℤ))
    else if c == '-' then (natPartVal rest).map (fun n => -(n : ℤ))
    else (natPartVal (c :: rest)).map (fun n => (n : ℤ))

/-- Parse the optional exponent part of a float literal and apply it to the
mantissa; the remainder must be fully consumed. -/
def parseExpPart (mant : ℚ) (r : List Char) : Option ℚ :=
  match r with
  | [] => some mant
  | c :: rest =>
    if c == 'e' || c == 'E' then
      let se := match rest with
        | c2 :: r2 =>
          if c2 == '+' then (false, r2)
          else if c2 == '-' then (true, r2)
          else (false, c2 :: r2)
        | [] => (false, ([] : List Char))
      match takeRun se.2 with
      | some (ev, _, r3) =>
        if r3.isEmpty then
          let e : ℤ := if se.1 then -(ev : ℤ) else (ev : ℤ)
          some (mant * (10 : ℚ) ^ e)
        else none
      | none => none
    else none

/-- Parse the unsigned body of a Python float literal: `digits[.digits][exp]`,
`digits.[exp]` or `.digits[exp]`. -/
def parseUnsigned (body : List Char) : Option ℚ :=
  match body with
  | '.' :: r1 =>
    (match takeRun r1 with
     | some (fv, fc, r2) => parseExpPart ((fv : ℚ) / (10 : ℚ) ^ fc) r2
     | none => none)
  | _ =>
    match takeRun body with
    | some (iv, _, r1) =>
      match r1 with
      | '.' :: r2 =>
        (match r2 with
         | c2 :: _ =>
           if c2.isDigit then
             match takeRun r2 with
             | some (fv, fc, r3) => parseExpPart ((iv : ℚ) + (fv : ℚ) / (10 : ℚ) ^ fc) r3
             | none => none
           else parseExpPart (iv : ℚ) r2
         | [] => parseExpPart (iv : ℚ) [])
      | _ => parseExpPart (iv : ℚ) r1
    | none => none

/-- Model of Python `float(s)` restricted to finite decimal/exponent literals
(`inf`, `infinity` and `nan` literals are not modelled); the result is the
exact rational value of the literal.  `none` models the `ValueError` caught by
the `try`/`except` handlers in `app.py`. -/
def parseFloatPy (s : Line) : Option ℚ :=
  match strip s with
  | [] => none
  | c :: rest =>
    if c == '+' then parseUnsigned rest
    else if c == '-' then (parseUnsigned rest).map (fun q => -q)
    else parseUnsigned (c :: rest)

/-- ASCII character of a decimal digit. -/
def digitChar : Nat → Char
  | 0 => '0'
  | 1 => '1'
  | 2 => '2'
  | 3 => '3'
  | 4 => '4'
  | 5 => '5'
  | 6 => '6'
  | 7 => '7'
  | 8 => '8'
  | _ => '9'

/-- Fuelled most-significant-first decimal digit accumulator. -/
def natDigitsCore : Nat → Nat → List Char → List Char
  | 0, _, acc => acc
  | fuel + 1, n, acc =>
    if n = 0 then acc else natDigitsCore fuel (n / 10) (digitChar (n % 10) :: acc)

/-- Decimal digit string of a natural number. -/
def natDigits (n : Nat) : List Char :=
  if n = 0 then ['0'] else natDigitsCore (n + 1) n []

/-- Round a nonnegative rational to the nearest integer, ties to even (the
rounding applied by fixed-point formatting). -/
def roundHE (q : ℚ) : ℕ :=
  let f : ℤ := ⌊q⌋
  let frac : ℚ := q - (f : ℚ)
  (if frac < 1 / 2 then f
   else if 1 / 2 < frac then f + 1
   else if f % 2 = 0 then f else f + 1).toNat

/-- Left-pad a fraction digit string with zeros to width 6. -/
def padZeros6 (ds : List Char) : List Char :=
  List.replicate (6 - ds.length) '0' ++ ds

/-- Model of the Python f-string `f"{q:.6f}"`: fixed-point rendering with
exactly 6 digits after the decimal point, over exact rationals (the binary
double rounding of the source is idealised away). -/
def fmt6 (q : ℚ) : List Char :=
  let r := roundHE (|q| * 1000000)
  (if q < 0 then ['-'] else [])
    ++ natDigits (r / 1000000) ++ '.' :: padZeros6 (natDigits (r % 1000000))

/-- Model of `format_float_custom` in `app.py`: format with 6 digits after
the decimal point, then keep only the first 6 characters. -/
def format_float_custom (value : ℚ) : Line :=
  (fmt6 value).take 6

/-- Right-pad with spaces to width 6 (the effect of the write loop in
`app.py` when the formatted text is shorter than the window). -/
def padRight6 (s : Line) : Line :=
  s ++ List.replicate (6 - s.length) ' '

/-- Model of the write loop `for i in range(6): modified_line[pos + i] = …`
in `app.py`: overwrite the 6-character window at `pos` with `s`, padding with
spaces when `s` is shorter than 6 characters. -/
def writeWin (l : Line) (pos : Nat) (s : Line) : Line :=
  (List.range 6).foldl (fun cur i => cur.set (pos + i) (s.getD i ' ')) l

/-- Value decoded from the `bar1` field of `app.py`: `line[0:6]`, stripped,
parsed as an integer, 0 on parse failure. -/
def bar1 (line : Line) : ℤ :=
  (parseIntPy (strip (pySlice line 0 6))).getD 0

/-- Value decoded from the `bar2` field of `app.py`: `line[7:12]`, stripped,
parsed as an integer, 0 on parse failure. -/
def bar2 (line : Line) : ℤ :=
  (parseIntPy (strip (pySlice line 7 12))).getD 0

/-- Match decision of `app.py`: `bar1 in bar_list_set or bar2 in
bar_list_set`. -/
def bar_match (bars : Finset ℤ) (line : Line) : Bool :=
  decide (bar1 line ∈ bars) || decide (bar2 line ∈ bars)

/-- Window-A rewrite of `app.py`: when `field18_23` (window A, offsets 17-22)
is blank, parse `rtrim(field24_29)` (window C, offsets 23-28), divide by 50
and write the formatted text into window A of `cur`; a parse failure leaves
`cur` untouched.  The fields are always read from `line` (the original line),
the write happens on `cur`. -/
def rewriteA (line cur : Line) : Line :=
  if is_blank (pySlice line 17 23) then
    match parseFloatPy (rtrim (pySlice line 23 29)) with
    | some v => writeWin cur 17 (format_float_custom (v / 50))
    | none => cur
  else cur

/-- Window-B rewrite of `app.py`: when `field30_35` (window B, offsets 29-34)
is blank, parse `rtrim(field36_41)` (window D, offsets 35-40), divide by 50
and write the formatted text into window B of `cur`; a parse failure leaves
`cur` untouched. -/
def rewriteB (line cur : Line) : Line :=
  if is_blank (pySlice line 29 35) then
    match parseFloatPy (rtrim (pySlice line 35 41)) with
    | some v => writeWin cur 29 (format_float_custom (v / 50))
    | none => cur
  else cur

/-- Processing of one data-state, non-terminator line (`app.py` lines 69-134):
lines of length at least 42 whose character at offset 16 is `'T'` and whose
bar fields match the target set get both window rewrites applied; every other
line passes through unchanged. -/
def dataStep (bars : Finset ℤ) (line : Line) : Line :=
  if 42 ≤ line.length then
    match line.get? 16 with
    | some c =>
      if c = 'T' then
        if bar_match bars line then rewriteB line (rewriteA line line) else line
      else line
    | none => line
  else line

/-- First index of a content-equal line, as Python's `list.index`; returns
the length when the line is absent (`app.py` only calls it on a present
element, where Python would otherwise raise `ValueError`). -/
def firstIdx : List Line → Line → Nat
  | [], _ => 0
  | x :: rest, l => if x = l then 0 else firstIdx rest l + 1

/-- Header marker prefix `"DCIR"`. -/
def dcirMarker : Line := "DCIR".toList

/-- Terminator marker prefix `"99999"`. -/
def termMarker : Line := "99999".toList

/-- The per-line loop of `process_text_file` (`app.py` lines 41-134).  `all`
is the full original line list, referenced by `lines.index(line)` at the
terminator; the `Bool`, `Bool` and `Nat` state components are `found_dcir`,
`processing_data` and `header_lines_remaining`. -/
def procAux (bars : Finset ℤ) (all : List Line) :
    Bool → Bool → Nat → List Line → List Line
  | _, _, _, [] => []
  | fd, pd, hr, line :: rest =>
    if fd = false then
      if startsWith line dcirMarker then
        line :: procAux bars all true pd 2 rest
      else
        line :: procAux bars all false pd hr rest
    else if 0 < hr then
      line :: procAux bars all fd (if hr - 1 = 0 then true else pd) (hr - 1) rest
    else if startsWith line termMarker then
      line :: all.drop (firstIdx all line + 1)
    else
      dataStep bars line :: procAux bars all fd pd hr rest

/-- Model of `process_text_file` at the line level: the input list is the
result of `input_text.splitlines()` and the output list is joined with
newlines by line 136 of `app.py`. -/
def processLines (bars : Finset ℤ) (lines : List Line) : List Line :=
  procAux bars lines false false 0 lines

/-- Newline join of the output lines, modelling `"\n".join(output_lines)`. -/
def joinLines : List Line → Line
  | [] => []
  | [l] => l
  | l :: ls => l ++ '\n' :: joinLines ls

/-- Model of `process_text_file` in `app.py`, from split lines to the joined
output text. -/
def process_text_file (bars : Finset ℤ) (lines : List Line) : Line :=
  joinLines (processLines bars lines)

/-- Checked character access, modelling Python's `line[i]`, which raises
`IndexError` when out of range. -/
def getCharE (l : Line) (i : Nat) : Except String Char :=
  match l.get? i with
  | some c => Except.ok c
  | none => Except.error "IndexError"

/-- Checked character store, modelling Python's `modified_line[i] = c`, which
raises `IndexError` when out of range. -/
def setCharE (l : Line) (i : Nat) (c : Char) : Except String Line :=
  if i < l.length then Except.ok (l.set i c) else Except.error "IndexError"

/-- Exception-aware version of the write loop. -/
def writeWinE (l : Line) (pos : Nat) (s : Line) : Except String Line :=
  (List.range 6).foldlM (fun cur i => setCharE cur (pos + i) (s.getD i ' ')) l

/-- Exception-aware `list.index`, modelling the `ValueError` Python raises on
a missing element. -/
def firstIdxE : List Line → Line → Except String Nat
  | [], _ => Except.error "ValueError"
  | x :: rest, l => if x = l then Except.ok 0 else (firstIdxE rest l).map (· + 1)

/-- Exception-aware window-A rewrite. -/
def rewriteAE (line cur : Line) : Except String Line :=
  if is_blank (pySlice line 17 23) then
    match parseFloatPy (rtrim (pySlice line 23 29)) with
    | some v => writeWinE cur 17 (format_float_custom (v / 50))
    | none => pure cur
  else pure cur

/-- Exception-aware window-B rewrite. -/
def rewriteBE (line cur : Line) : Except String Line :=
  if is_blank (pySlice line 29 35) then
    match parseFloatPy (rtrim (pySlice line 35 41)) with
    | some v => writeWinE cur 29 (format_float_custom (v / 50))
    | none => pure cur
  else pure cur

/-- Exception-aware data-line processing: every Python operation of
`app.py` lines 69-134 that can raise on an out-of-range access is checked;
`int`/`float` parse failures are already `Option`s, mirroring the
`try`/`except ValueError` handlers of the source. -/
def dataStepE (bars : Finset ℤ) (line : Line) : Except String Line :=
  if 42 ≤ line.length then do
    let c ← getCharE line 16
    if c = 'T' then
      if bar_match bars line then do
        let l1 ← rewriteAE line line
        let l2 ← rewriteBE line l1
        pure l2
      else pure line
    else pure line
  else pure line

/-- Exception-aware per-line loop of `process_text_file`. -/
def procAuxE (bars : Finset ℤ) (all : List Line) :
    Bool → Bool → Nat → List Line → Except String (List Line)
  | _, _, _, [] => pure []
  | fd, pd, hr, line :: rest =>
    if fd = false then
      if startsWith line dcirMarker then
        (procAuxE bars all true pd 2 rest).map (line :: ·)
      else
        (procAuxE bars all false pd hr rest).map (line :: ·)
    else if 0 < hr then
      (procAuxE bars all fd (if hr - 1 = 0 then true else pd) (hr - 1) rest).map (line :: ·)
    else if startsWith line termMarker then
      (firstIdxE all line).map (fun i => line :: all.drop (i + 1))
    else do
      let l2 ← dataStepE bars line
      (procAuxE bars all fd pd hr rest).map (fun out => l2 :: out)

/-- Exception-aware transform: an `Except.error` result would be an exception
escaping `process_text_file`. -/
def processLinesE (bars : Finset ℤ) (lines : List Line) : Except String (List Line) :=
  procAuxE bars lines false false 0 lines

/-! Infrastructure lemmas about the write loop, slices and padding. -/

theorem writeWin_def (l : Line) (pos : Nat) (s : Line) :
    writeWin l pos s =
      (((((l.set pos (s.getD 0 ' ')).set (pos + 1) (s.getD 1 ' ')).set (pos + 2)
          (s.getD 2 ' ')).set (pos + 3) (s.getD 3 ' ')).set (pos + 4)
          (s.getD 4 ' ')).set (pos + 5) (s.getD 5 ' ') := rfl

theorem length_writeWin (l : Line) (pos : Nat) (s : Line) :
    (writeWin l pos s).length = l.length := by
  rw [writeWin_def]
  simp

theorem writeWin_get?_low (l s : Line) {pos j : Nat} (h : j < pos) :
    (writeWin l pos s).get? j = l.get? j := by
  rw [writeWin_def]
  simp only [List.get?_eq_getElem?]
  rw [List.getElem?_set_ne (by omega), List.getElem?_set_ne (by omega),
    List.getElem?_set_ne (by omega), List.getElem?_set_ne (by omega),
    List.getElem?_set_ne (by omega), List.getElem?_set_ne (by omega)]

theorem writeWin_get?_high (l s : Line) {pos j : Nat} (h : pos + 6 ≤ j) :
    (writeWin l pos s).get? j = l.get? j := by
  rw [writeWin_def]
  simp only [List.get?_eq_getElem?]
  rw [List.getElem?_set_ne (by omega), List.getElem?_set_ne (by omega),
    List.getElem?_set_ne (by omega), List.getElem?_set_ne (by omega),
    List.getElem?_set_ne (by omega), List.getElem?_set_ne (by omega)]

theorem writeWin_get?_mid (l s : Line) {pos j : Nat} (hlo : pos ≤ j) (hhi : j < pos + 6)
    (hlen : j < l.length) :
    (writeWin l pos s).get? j = some (s.getD (j - pos) ' ') := by
  obtain ⟨k, hk6, rfl⟩ : ∃ k, k < 6 ∧ j = pos + k := ⟨j - pos, by omega, by omega⟩
  rw [writeWin_def]
  simp only [List.get?_eq_getElem?]
  interval_cases k
  · simp only [Nat.add_zero]
    rw [List.getElem?_set_ne (by omega), List.getElem?_set_ne (by omega),
      List.getElem?_set_ne (by omega), List.getElem?_set_ne (by omega),
      List.getElem?_set_ne (by omega)]
    rw [List.getElem?_set_eq_of_lt _ (by simpa using hlen)]
    simp
  · rw [List.getElem?_set_ne (by omega), List.getElem?_set_ne (by omega),
      List.getElem?_set_ne (by omega), List.getElem?_set_ne (by omega)]
    rw [List.getElem?_set_eq_of_lt _ (by simpa using hlen)]
    simp
  · rw [List.getElem?_set_ne (by omega), List.getElem?_set_ne (by omega),
      List.getElem?_set_ne (by omega)]
    rw [List.getElem?_set_eq_of_lt _ (by simpa using hlen)]
    simp
  · rw [List.getElem?_set_ne (by omega), List.getElem?_set_ne (by omega)]
    rw [List.getElem?_set_eq_of_lt _ (by simpa using hlen)]
    simp
  · rw [List.getElem?_set_ne (by omega)]
    rw [List.getElem?_set_eq_of_lt _ (by simpa using hlen)]
    simp
  · rw [List.getElem?_set_eq_of_lt _ (by simpa using hlen)]
    simp

theorem pySlice_get? (l : Line) (a b j : Nat) :
    (pySlice l a b).get? j = if a + j < b then l.get? (a + j) else none := by
  simp only [pySlice, List.get?_eq_getElem?, List.getElem?_drop, List.getElem?_take]

theorem pySlice_congr {l₁ l₂ : Line} {a b : Nat}
    (h : ∀ j, a ≤ j → j < b → l₁.get? j = l₂.get? j) :
    pySlice l₁ a b = pySlice l₂ a b := by
  apply List.ext_get?
  intro n
  rw [pySlice_get?, pySlice_get?]
  by_cases hn : a + n < b
  · rw [if_pos hn, if_pos hn]
    exact h (a + n) (by omega) hn
  · rw [if_neg hn, if_neg hn]

theorem padRight6_get? (s : Line) (hs : s.length ≤ 6) (j : Nat) :
    (padRight6 s).get? j = if j < 6 then some (s.getD j ' ') else none := by
  simp only [padRight6, List.get?_eq_getElem?]
  by_cases h1 : j < s.length
  · rw [List.getElem?_append_left h1, if_pos (by omega)]
    rw [List.getElem?_eq_getElem h1]
    simp [List.getD_eq_getElem?_getD, List.getElem?_eq_getElem h1]
  · rw [List.getElem?_append_right (by omega), List.getElem?_replicate]
    by_cases h2 : j < 6
    · rw [if_pos (by omega), if_pos h2]
      simp [List.getD_eq_getElem?_getD, List.getElem?_eq_none (by omega : s.length ≤ j)]
    · rw [if_neg (by omega), if_neg h2]

theorem pySlice_writeWin_left {l s : Line} {pos a b : Nat} (h : b ≤ pos) :
    pySlice (writeWin l pos s) a b = pySlice l a b :=
  pySlice_congr (fun _ _ hj => writeWin_get?_low l s (by omega))

theorem pySlice_writeWin_right {l s : Line} {pos a b : Nat} (h : pos + 6 ≤ a) :
    pySlice (writeWin l pos s) a b = pySlice l a b :=
  pySlice_congr (fun _ hj _ => writeWin_get?_high l s (by omega))

theorem pySlice_writeWin_self {l s : Line} {pos : Nat} (hlen : pos + 6 ≤ l.length)
    (hs : s.length ≤ 6) :
    pySlice (writeWin l pos s) pos (pos + 6) = padRight6 s := by
  apply List.ext_get?
  intro n
  rw [pySlice_get?, padRight6_get? s hs]
  by_cases hn : pos + n < pos + 6
  · rw [if_pos hn, if_pos (by omega),
      writeWin_get?_mid l s (by omega) hn (by omega)]
    simp
  · rw [if_neg hn, if_neg (by omega)]

/-! Structure and frame lemmas for the per-line rewrite. -/

theorem rewriteA_of_blank {line : Line} {v : ℚ} (cur : Line)
    (hb : is_blank (pySlice line 17 23) = true)
    (hv : parseFloatPy (rtrim (pySlice line 23 29)) = some v) :
    rewriteA line cur = writeWin cur 17 (format_float_custom (v / 50)) := by
  simp [rewriteA, hb, hv]

theorem rewriteA_of_not_blank {line : Line} (cur : Line)
    (hb : is_blank (pySlice line 17 23) = false) :
    rewriteA line cur = cur := by
  simp [rewriteA, hb]

theorem rewriteA_of_none {line : Line} (cur : Line)
    (hv : parseFloatPy (rtrim (pySlice line 23 29)) = none) :
    rewriteA line cur = cur := by
  simp [rewriteA, hv]

theorem rewriteB_of_blank {line : Line} {v : ℚ} (cur : Line)
    (hb : is_blank (pySlice line 29 35) = true)
    (hv : parseFloatPy (rtrim (pySlice line 35 41)) = some v) :
    rewriteB line cur = writeWin cur 29 (format_float_custom (v / 50)) := by
  simp [rewriteB, hb, hv]

theorem rewriteB_of_not_blank {line : Line} (cur : Line)
    (hb : is_blank (pySlice line 29 35) = false) :
    rewriteB line cur = cur := by
  simp [rewriteB, hb]

theorem rewriteB_of_none {line : Line} (cur : Line)
    (hv : parseFloatPy (rtrim (pySlice line 35 41)) = none) :
    rewriteB line cur = cur := by
  simp [rewriteB, hv]

theorem length_rewriteA (line cur : Line) : (rewriteA line cur).length = cur.length := by
  unfold rewriteA
  by_cases hb : is_blank (pySlice line 17 23)
  · cases hv : parseFloatPy (rtrim (pySlice line 23 29)) <;>
      simp [hb, hv, length_writeWin]
  · simp [hb]

theorem length_rewriteB (line cur : Line) : (rewriteB line cur).length = cur.length := by
  unfold rewriteB
  by_cases hb : is_blank (pySlice line 29 35)
  · cases hv : parseFloatPy (rtrim (pySlice line 35 41)) <;>
      simp [hb, hv, length_writeWin]
  · simp [hb]

theorem rewriteA_get?_out {line cur : Line} {j : Nat} (h : j < 17 ∨ 23 ≤ j) :
    (rewriteA line cur).get? j = cur.get? j := by
  unfold rewriteA
  by_cases hb : is_blank (pySlice line 17 23)
  · cases hv : parseFloatPy (rtrim (pySlice line 23 29))
    · simp [hb, hv]
    · simp only [hb, hv, if_true]
      rcases h with h | h
      · exact writeWin_get?_low _ _ h
      · exact writeWin_get?_high _ _ (by omega)
  · simp [hb]

theorem rewriteB_get?_out {line cur : Line} {j : Nat} (h : j < 29 ∨ 35 ≤ j) :
    (rewriteB line cur).get? j = cur.get? j := by
  unfold rewriteB
  by_cases hb : is_blank (pySlice line 29 35)
  · cases hv : parseFloatPy (rtrim (pySlice line 35 41))
    · simp [hb, hv]
    · simp only [hb, hv, if_true]
      rcases h with h | h
      · exact writeWin_get?_low _ _ h
      · exact writeWin_get?_high _ _ (by omega)
  · simp [hb]

theorem dataStep_eq_rewrite {bars : Finset ℤ} {line : Line} (h42 : 42 ≤ line.length)
    (hT : line.get? 16 = some 'T') (hm : bar_match bars line = true) :
    dataStep bars line = rewriteB line (rewriteA line line) := by
  unfold dataStep
  rw [if_pos h42, hT]
  simp [hm]

theorem dataStep_eq_self_of_no_match {bars : Finset ℤ} {line : Line}
    (hm : bar_match bars line = false) :
    dataStep bars line = line := by
  unfold dataStep
  by_cases h42 : 42 ≤ line.length
  · rw [if_pos h42]
    cases hc : line.get? 16 with
    | none => rfl
    | some c =>
      by_cases hT : c = 'T'
      · simp [hT, hm]
      · simp [hT]
  · rw [if_neg h42]

theorem length_dataStep (bars : Finset ℤ) (line : Line) :
    (dataStep bars line).length = line.length := by
  unfold dataStep
  by_cases h42 : 42 ≤ line.length
  · rw [if_pos h42]
    cases hc : line.get? 16 with
    | none => rfl
    | some c =>
      by_cases hT : c = 'T'
      · by_cases hm : bar_match bars line
        · simp [hT, hm, length_rewriteB, length_rewriteA]
        · simp [hT, hm]
      · simp [hT]
  · rw [if_neg h42]

theorem dataStep_get?_out {bars : Finset ℤ} {line : Line} {j : Nat}
    (h : j < 17 ∨ (23 ≤ j ∧ j < 29) ∨ 35 ≤ j) :
    (dataStep bars line).get? j = line.get? j := by
  unfold dataStep
  by_cases h42 : 42 ≤ line.length
  · rw [if_pos h42]
    cases hc : line.get? 16 with
    | none => rfl
    | some c =>
      by_cases hT : c = 'T'
      · by_cases hm : bar_match bars line
        · simp only [hT, hm, if_true]
          rw [rewriteB_get?_out (by omega), rewriteA_get?_out (by omega)]
        · simp [hT, hm]
      · simp [hT]
  · rw [if_neg h42]

/-! Lemmas about the shape of formatted numbers. -/

theorem digitChar_not_space (d : Nat) : isSpaceChar (digitChar d) = false := by
  rcases d with _ | _ | _ | _ | _ | _ | _ | _ | _ | d <;> rfl

theorem natDigitsCore_shape (fuel : Nat) : ∀ (n : Nat) (acc : List Char),
    ∃ pre, natDigitsCore fuel n acc = pre ++ acc ∧ ∀ c ∈ pre, ∃ d, c = digitChar d := by
  induction fuel with
  | zero => exact fun n acc => ⟨[], rfl, by simp⟩
  | succ fuel ih =>
    intro n acc
    by_cases hn : n = 0
    · exact ⟨[], by simp [natDigitsCore, hn], by simp⟩
    · obtain ⟨pre, hpre, hd⟩ := ih (n / 10) (digitChar (n % 10) :: acc)
      refine ⟨pre ++ [digitChar (n % 10)], ?_, ?_⟩
      · simp [natDigitsCore, hn, hpre]
      · intro c hc
        rcases List.mem_append.1 hc with hc | hc
        · exact hd c hc
        · exact ⟨n % 10, by simpa using hc⟩

theorem natDigits_head (n : Nat) :
    ∃ d rest, natDigits n = digitChar d :: rest := by
  by_cases hn : n = 0
  · exact ⟨0, [], by simp [natDigits, hn]; rfl⟩
  · obtain ⟨pre, hpre, hd⟩ := natDigitsCore_shape n (n / 10) [digitChar (n % 10)]
    have h1 : natDigits n = pre ++ [digitChar (n % 10)] := by
      rw [natDigits, if_neg hn]
      rw [show natDigitsCore (n + 1) n [] = natDigitsCore n (n / 10) [digitChar (n % 10)] from
        by simp [natDigitsCore, hn]]
      simpa using hpre
    cases hp : pre with
    | nil => exact ⟨n % 10, [], by simpa [hp] using h1⟩
    | cons c pre2 =>
      obtain ⟨d, hdd⟩ := hd c (by simp [hp])
      exact ⟨d, pre2 ++ [digitChar (n % 10)], by simp [h1, hp, hdd]⟩

theorem fmt6_head (q : ℚ) :
    ∃ c rest, fmt6 q = c :: rest ∧ isSpaceChar c = false := by
  unfold fmt6
  by_cases hq : q < 0
  · refine ⟨'-', natDigits (roundHE (|q| * 1000000) / 1000000) ++
      '.' :: padZeros6 (natDigits (roundHE (|q| * 1000000) % 1000000)), ?_, rfl⟩
    simp [hq]
  · obtain ⟨d, rest, hd⟩ := natDigits_head (roundHE (|q| * 1000000) / 1000000)
    refine ⟨digitChar d, rest ++
      '.' :: padZeros6 (natDigits (roundHE (|q| * 1000000) % 1000000)), ?_,
      digitChar_not_space d⟩
    simp [hq, hd]

theorem format_float_custom_head (q : ℚ) :
    ∃ c rest, format_float_custom q = c :: rest ∧ isSpaceChar c = false := by
  obtain ⟨c, rest, hf, hc⟩ := fmt6_head q
  exact ⟨c, rest.take 5, by simp [format_float_custom, hf], hc⟩

theorem length_format_float_custom (q : ℚ) : (format_float_custom q).length ≤ 6 := by
  simp [format_float_custom]

theorem is_blank_padRight6_format (q : ℚ) :
    is_blank (padRight6 (format_float_custom q)) = false := by
  obtain ⟨c, rest, hf, hc⟩ := format_float_custom_head q
  simp [padRight6, hf, is_blank, hc]

/-! Window-level facts about `dataStep`. -/

theorem dataStep_sliceA_written {bars : Finset ℤ} {line : Line} {v : ℚ}
    (h42 : 42 ≤ line.length) (hT : line.get? 16 = some 'T')
    (hm : bar_match bars line = true)
    (hbA : is_blank (pySlice line 17 23) = true)
    (hvC : parseFloatPy (rtrim (pySlice line 23 29)) = some v) :
    pySlice (dataStep bars line) 17 23 = padRight6 (format_float_custom (v / 50)) := by
  rw [dataStep_eq_rewrite h42 hT hm, rewriteA_of_blank _ hbA hvC]
  have hfr : pySlice (rewriteB line (writeWin line 17 (format_float_custom (v / 50)))) 17 23 =
      pySlice (writeWin line 17 (format_float_custom (v / 50))) 17 23 :=
    pySlice_congr (fun j h1 h2 => rewriteB_get?_out (Or.inl (by omega)))
  rw [hfr]
  exact pySlice_writeWin_self (by omega) (length_format_float_custom _)

theorem dataStep_sliceB_written {bars : Finset ℤ} {line : Line} {w : ℚ}
    (h42 : 42 ≤ line.length) (hT : line.get? 16 = some 'T')
    (hm : bar_match bars line = true)
    (hbB : is_blank (pySlice line 29 35) = true)
    (hvD : parseFloatPy (rtrim (pySlice line 35 41)) = some w) :
    pySlice (dataStep bars line) 29 35 = padRight6 (format_float_custom (w / 50)) := by
  rw [dataStep_eq_rewrite h42 hT hm, rewriteB_of_blank _ hbB hvD]
  have hlen : 29 + 6 ≤ (rewriteA line line).length := by
    rw [length_rewriteA]
    omega
  exact pySlice_writeWin_self hlen (length_format_float_custom _)

theorem dataStep_sliceA_preserved {bars : Finset ℤ} {line : Line}
    (h42 : 42 ≤ line.length) (hT : line.get? 16 = some 'T')
    (hbA : is_blank (pySlice line 17 23) = false) :
    pySlice (dataStep bars line) 17 23 = pySlice line 17 23 := by
  by_cases hm : bar_match bars line
  · rw [dataStep_eq_rewrite h42 hT hm, rewriteA_of_not_blank _ hbA]
    exact pySlice_congr (fun j h1 h2 => rewriteB_get?_out (Or.inl (by omega)))
  · rw [dataStep_eq_self_of_no_match (by simpa using hm)]

theorem dataStep_slice06 (bars : Finset ℤ) (line : Line) :
    pySlice (dataStep bars line) 0 6 = pySlice line 0 6 :=
  pySlice_congr (fun j _ h2 => dataStep_get?_out (by omega))

theorem dataStep_slice712 (bars : Finset ℤ) (line : Line) :
    pySlice (dataStep bars line) 7 12 = pySlice line 7 12 :=
  pySlice_congr (fun j _ h2 => dataStep_get?_out (by omega))

theorem dataStep_get?_16 (bars : Finset ℤ) (line : Line) :
    (dataStep bars line).get? 16 = line.get? 16 :=
  dataStep_get?_out (by omega)

theorem bar1_dataStep (bars2 : Finset ℤ) (line : Line) :
    bar1 (dataStep bars2 line) = bar1 line := by
  unfold bar1
  rw [dataStep_slice06]

theorem bar2_dataStep (bars2 : Finset ℤ) (line : Line) :
    bar2 (dataStep bars2 line) = bar2 line := by
  unfold bar2
  rw [dataStep_slice712]

theorem bar_match_dataStep (bars bars2 : Finset ℤ) (line : Line) :
    bar_match bars (dataStep bars2 line) = bar_match bars line := by
  unfold bar_match
  rw [bar1_dataStep bars2, bar2_dataStep bars2]

/-! State-machine lemmas for the per-line loop. -/

theorem procAux_no_dcir (bars : Finset ℤ) (all : List Line) :
    ∀ (rest : List Line) (pd : Bool) (hr : Nat),
      (∀ l ∈ rest, startsWith l dcirMarker = false) →
      procAux bars all false pd hr rest = rest := by
  intro rest
  induction rest with
  | nil => intro pd hr _; rfl
  | cons line rest ih =>
    intro pd hr h
    have hline := h line (by simp)
    simp [procAux, hline, ih pd hr (fun l hl => h l (by simp [hl]))]

theorem procAux_header (bars : Finset ℤ) (all : List Line) (d h1 h2 : Line)
    (rest : List Line) (hd : startsWith d dcirMarker = true) :
    ∀ (pre : List Line) (pd : Bool) (hr : Nat),
      (∀ l ∈ pre, startsWith l dcirMarker = false) →
      procAux bars all false pd hr (pre ++ d :: h1 :: h2 :: rest) =
        pre ++ d :: h1 :: h2 :: procAux bars all true true 0 rest := by
  intro pre
  induction pre with
  | nil =>
    intro pd hr _
    simp [procAux, hd]
  | cons l pre ih =>
    intro pd hr hpre
    have hl := hpre l (by simp)
    simp [procAux, hl, ih pd hr (fun x hx => hpre x (by simp [hx]))]

/-! Equivalence of the exception-aware model with the total model: no
exception escapes. -/

theorem writeWinE_ok_aux (pos : Nat) (s : Line) :
    ∀ (idxs : List Nat) (cur : Line), (∀ i ∈ idxs, pos + i < cur.length) →
      List.foldlM (fun cur i => setCharE cur (pos + i) (s.getD i ' ')) cur idxs =
        Except.ok (List.foldl (fun cur i => cur.set (pos + i) (s.getD i ' ')) cur idxs) := by
  intro idxs
  induction idxs with
  | nil => intro cur _; rfl
  | cons i idxs ih =>
    intro cur h
    have hi : pos + i < cur.length := h i (by simp)
    rw [List.foldlM_cons, List.foldl_cons]
    rw [show setCharE cur (pos + i) (s.getD i ' ') =
      Except.ok (cur.set (pos + i) (s.getD i ' ')) from if_pos hi]
    have hrec := ih (cur.set (pos + i) (s.getD i ' '))
      (fun j hj => by rw [List.length_set]; exact h j (by simp [hj]))
    exact hrec

theorem writeWinE_ok {l s : Line} {pos : Nat} (h : pos + 6 ≤ l.length) :
    writeWinE l pos s = Except.ok (writeWin l pos s) := by
  apply writeWinE_ok_aux
  intro i hi
  have : i < 6 := List.mem_range.1 hi
  omega

theorem rewriteAE_ok {line cur : Line} (h : 23 ≤ cur.length) :
    rewriteAE line cur = Except.ok (rewriteA line cur) := by
  unfold rewriteAE rewriteA
  by_cases hb : is_blank (pySlice line 17 23)
  · cases hv : parseFloatPy (rtrim (pySlice line 23 29))
    · simp [hb, hv, pure, Except.pure]
    · simp [hb, hv, writeWinE_ok (show 17 + 6 ≤ cur.length by omega)]
  · simp [hb, pure, Except.pure]

theorem rewriteBE_ok {line cur : Line} (h : 35 ≤ cur.length) :
    rewriteBE line cur = Except.ok (rewriteB line cur) := by
  unfold rewriteBE rewriteB
  by_cases hb : is_blank (pySlice line 29 35)
  · cases hv : parseFloatPy (rtrim (pySlice line 35 41))
    · simp [hb, hv, pure, Except.pure]
    · simp [hb, hv, writeWinE_ok (show 29 + 6 ≤ cur.length by omega)]
  · simp [hb, pure, Except.pure]

theorem dataStepE_ok (bars : Finset ℤ) (line : Line) :
    dataStepE bars line = Except.ok (dataStep bars line) := by
  unfold dataStepE dataStep
  by_cases h42 : 42 ≤ line.length
  · rw [if_pos h42, if_pos h42]
    cases hc : line.get? 16 with
    | none =>
      exfalso
      rw [List.get?_eq_getElem?, List.getElem?_eq_none_iff] at hc
      omega
    | some c =>
      simp only [getCharE, hc]
      by_cases hT : c = 'T'
      · by_cases hm : bar_match bars line
        · have e1 : rewriteAE line line = Except.ok (rewriteA line line) :=
            rewriteAE_ok (by omega)
          have e2 : rewriteBE line (rewriteA line line) =
              Except.ok (rewriteB line (rewriteA line line)) :=
            rewriteBE_ok (by rw [length_rewriteA]; omega)
          simp [hT, hm, e1, e2, Bind.bind, Except.bind, pure, Except.pure]
        · simp [hT, hm, Bind.bind, Except.bind, pure, Except.pure]
      · simp [hT, Bind.bind, Except.bind, pure, Except.pure]
  · rw [if_neg h42, if_neg h42]
    rfl

theorem firstIdxE_ok : ∀ (all : List Line) (l : Line), l ∈ all →
    firstIdxE all l = Except.ok (firstIdx all l) := by
  intro all
  induction all with
  | nil => intro l hl; cases hl
  | cons x rest ih =>
    intro l hl
    by_cases hx : x = l
    · simp [firstIdxE, firstIdx, hx]
    · have hmem : l ∈ rest := by
        rcases List.mem_cons.1 hl with h | h
        · exact absurd h.symm hx
        · exact h
      simp [firstIdxE, firstIdx, hx, ih l hmem, Except.map]

theorem procAuxE_ok (bars : Finset ℤ) (all : List Line) :
    ∀ (rest : List Line) (fd pd : Bool) (hr : Nat), (∀ l ∈ rest, l ∈ all) →
      procAuxE bars all fd pd hr rest = Except.ok (procAux bars all fd pd hr rest) := by
  intro rest
  induction rest with
  | nil => intro fd pd hr _; rfl
  | cons line rest ih =>
    intro fd pd hr h
    have hline : line ∈ all := h line (by simp)
    have ih' : ∀ (a : Bool) (b : Bool) (c : Nat),
        procAuxE bars all a b c rest = Except.ok (procAux bars all a b c rest) :=
      fun a b c => ih a b c (fun l hl => h l (by simp [hl]))
    by_cases hfd : fd = false
    · by_cases hdc : startsWith line dcirMarker
      · simp [procAuxE, procAux, hfd, hdc, ih', Except.map]
      · simp [procAuxE, procAux, hfd, hdc, ih', Except.map]
    · by_cases hhr : 0 < hr
      · simp [procAuxE, procAux, hfd, hhr, ih', Except.map]
      · by_cases hterm : startsWith line termMarker
        · simp [procAuxE, procAux, hfd, hhr, hterm, firstIdxE_ok all line hline, Except.map]
        · simp [procAuxE, procAux, hfd, hhr, hterm, dataStepE_ok, ih', Except.map,
            Bind.bind, Except.bind]

/-! Concrete evaluation of the formatting pipeline at the values used in the
spec's worked example. -/

theorem roundHE_natCast (n : ℕ) : roundHE (n : ℚ) = n := by
  unfold roundHE
  rw [Int.floor_natCast]
  norm_num

theorem fmt6_ten : fmt6 (10 : ℚ) = "10.000000".toList := by
  unfold fmt6
  rw [show |(10 : ℚ)| * 1000000 = ((10000000 : ℕ) : ℚ) from by norm_num,
    roundHE_natCast, if_neg (by norm_num : ¬(10 : ℚ) < 0)]
  decide

theorem format_float_custom_ten : format_float_custom ((500 : ℚ) / 50) = "10.000".toList := by
  unfold format_float_custom
  rw [show (500 : ℚ) / 50 = 10 from by norm_num, fmt6_ten]
  decide

theorem dataStep_get?_B_preserved {bars : Finset ℤ} {line : Line}
    (h42 : 42 ≤ line.length) (hT : line.get? 16 = some 'T')
    (hB : is_blank (pySlice line 29 35) = false ∨
      parseFloatPy (rtrim (pySlice line 35 41)) = none)
    {j : Nat} (hj1 : 29 ≤ j) (hj2 : j < 35) :
    (dataStep bars line).get? j = line.get? j := by
  by_cases hm : bar_match bars line
  · rw [dataStep_eq_rewrite h42 hT hm]
    have hBeq : rewriteB line (rewriteA line line) = rewriteA line line := by
      rcases hB with h | h
      · exact rewriteB_of_not_blank _ h
      · exact rewriteB_of_none _ h
    rw [hBeq]
    exact rewriteA_get?_out (Or.inr (by omega))
  · rw [dataStep_eq_self_of_no_match (by simpa using hm)]

/-! Concrete input lines and line lists used by the claim theorems. -/

/-- Input whose data-state terminator line duplicates the pre-header first
line: `lines.index` then finds position 0 instead of position 4. -/
def dupTermC1 : List Line :=
  ["99999".toList, "DCIRW".toList, "hdr1".toList, "hdr2".toList, "99999".toList]

/-- A second input of the same duplicate-terminator shape. -/
def dupTermC2 : List Line :=
  ["99999E".toList, "DCIRQ".toList, "ha".toList, "hb".toList, "99999E".toList]

/-- Duplicate-terminator input with a trailing line, exposing the broken
index correspondence between input and output lines. -/
def dupTermC5 : List Line :=
  ["99999Z".toList, "DCIRX".toList, "h1".toList, "h2".toList, "99999Z".toList,
    "hello".toList]

/-! Claim theorems. -/

/-- C1: the claim states that once a data-state line starting with "99999" is
reached, the output is that line followed by exactly the input lines after
its position, even when an identical line occurred earlier.  The code instead
locates the suffix with `lines.index(line)`, the first content-equal
occurrence: on an input whose data-state terminator duplicates the pre-header
first line, the output repeats the header block and terminator after the
data-state terminator instead of ending there, so the claimed property fails
on the code. -/
theorem C1_terminator_duplicate_eval :
    processLines ∅ dupTermC1 =
      ["99999".toList, "DCIRW".toList, "hdr1".toList, "hdr2".toList, "99999".toList,
        "DCIRW".toList, "hdr1".toList, "hdr2".toList, "99999".toList] ∧
    processLines ∅ dupTermC1 ≠ dupTermC1 := by
  decide

/-- C2: the claim states the output always has exactly as many lines as the
input's line split.  On an input whose data-state terminator duplicates the
pre-header first line, `lines.index(line)` finds position 0 and the code
appends `lines[1:]` again: 5 input lines produce 9 output lines. -/
theorem C2_line_count_eval :
    dupTermC2.length = 5 ∧ (processLines ∅ dupTermC2).length = 9 := by
  decide

/-- C5: the claim states the i-th output line can differ from the i-th input
line only in windows A and B and only on a matched data line.  On a
duplicate-terminator input the appended suffix is misaligned: output line 5
is the header line "DCIRX" while input line 5 is the non-qualifying line
"hello", differing outside both windows. -/
theorem C5_frame_correspondence_eval :
    (processLines ∅ dupTermC5).get? 5 = some ("DCIRX".toList) ∧
    dupTermC5.get? 5 = some ("hello".toList) ∧
    (processLines ∅ dupTermC5).length ≠ dupTermC5.length := by
  decide

/-- C8: for every input in which no line starts with "DCIR" and every
target-id set, the transform returns the input unchanged line-for-line. -/
theorem C8_no_header_pass_through (bars : Finset ℤ) (lines : List Line)
    (h : ∀ l ∈ lines, startsWith l dcirMarker = false) :
    processLines bars lines = lines :=
  procAux_no_dcir bars lines lines false 0 h

/-- Witness for C8 at a concrete headerless input (including a "99999" line,
which passes through without stopping anything). -/
theorem C8_no_header_pass_through_witness :
    (∀ l ∈ [("hello".toList : Line), "99999A".toList, "  x".toList],
      startsWith l dcirMarker = false) ∧
    processLines {7} ["hello".toList, "99999A".toList, "  x".toList] =
      ["hello".toList, "99999A".toList, "  x".toList] :=
  ⟨by decide, C8_no_header_pass_through {7} _ (by decide)⟩

/-- C9: for every input line list and target-id set, the transform returns a
result: the exception-aware model, in which every partial Python operation
(indexing, element store, `list.index`) is checked and every parse failure is
an `Option` handled as in the source, always returns `Except.ok` of the total
model's output — no exception escapes and no partial result is produced. -/
theorem C9_no_exception_escapes (bars : Finset ℤ) (lines : List Line) :
    processLinesE bars lines = Except.ok (processLines bars lines) :=
  procAuxE_ok bars lines lines false false 0 (fun _ hl => hl)

/-- C10: terminator recognition happens only in data state: for any preamble
without "DCIR" lines (which may contain lines starting with "99999") and any
2-line header block (which may also contain such lines), the output passes
the preamble, the "DCIR" line and both header lines through unchanged and
continues processing the remaining lines in data state, where they stay
eligible for classification and rewriting. -/
theorem C10_terminator_only_in_data_state (bars : Finset ℤ) (pre : List Line)
    (d h1 h2 : Line) (rest : List Line)
    (hpre : ∀ l ∈ pre, startsWith l dcirMarker = false)
    (hd : startsWith d dcirMarker = true) :
    processLines bars (pre ++ d :: h1 :: h2 :: rest) =
      pre ++ d :: h1 :: h2 ::
        procAux bars (pre ++ d :: h1 :: h2 :: rest) true true 0 rest :=
  procAux_header bars _ d h1 h2 rest hd pre false 0 hpre

/-- Witness for C10: a "99999A" preamble line and a "99999B" header line pass
through without stopping processing, and the later data-state line is still
scanned. -/
theorem C10_terminator_only_in_data_state_witness :
    processLines {5} (["99999A".toList] ++
        "DCIRHDR".toList :: "99999B".toList :: "hh".toList :: ["tail".toList]) =
      ["99999A".toList, "DCIRHDR".toList, "99999B".toList, "hh".toList,
        "tail".toList] :=
  (C10_terminator_only_in_data_state {5} ["99999A".toList] "DCIRHDR".toList
    "99999B".toList "hh".toList ["tail".toList] (by decide) (by decide)).trans
    (by decide)

/-- Data line whose bar fields are both unparseable, with blank window A and
window C containing "   500". -/
def badBarsLine : Line :=
  ("XXXXXX XXXXX    T" ++ "      " ++ "   500" ++ "      " ++ "ABCDEF" ++ "Z").toList

/-- C3 counterexample: with target-id set `{0}`, a data line both of whose bar
fields fail integer parsing DOES match (the failed parses contribute the
value 0, and 0 is a target id) and is NOT emitted unchanged: its blank window
A gets rewritten from window C.  This refutes the claim as stated, which
asserts such a line never matches and is always emitted unchanged. -/
theorem C3_zero_target_counterexample :
    bar_match {0} badBarsLine = true ∧ dataStep ({0} : Finset ℤ) badBarsLine ≠ badBarsLine := by
  constructor
  · decide
  · intro h
    have hs := @dataStep_sliceA_written {0} badBarsLine 500
      (by decide) (by decide) (by decide) (by decide) (by decide)
    rw [h, show pySlice badBarsLine 17 23 = "      ".toList from by decide,
      format_float_custom_ten,
      show padRight6 ("10.000".toList) = "10.000".toList from by decide] at hs
    exact absurd hs (by decide)

/-- C3 (amended): for every data-state line of length at least 42 with 'T' at
offset 16 both of whose bar substrings fail integer parsing, and every
target-id set NOT containing 0, the line never matches and is emitted
unchanged (each failed parse contributes the value 0 to the match decision,
so it can still match exactly when 0 is a target id). -/
theorem C3_parse_failure_never_matches (bars : Finset ℤ) (line : Line)
    (_h42 : 42 ≤ line.length) (_hT : line.get? 16 = some 'T')
    (h1 : parseIntPy (strip (pySlice line 0 6)) = none)
    (h2 : parseIntPy (strip (pySlice line 7 12)) = none)
    (h0 : (0 : ℤ) ∉ bars) :
    bar_match bars line = false ∧ dataStep bars line = line := by
  have hm : bar_match bars line = false := by
    unfold bar_match bar1 bar2
    rw [h1, h2]
    simp [h0]
  exact ⟨hm, dataStep_eq_self_of_no_match hm⟩

/-- Witness for C3 (amended) at the concrete unparseable-bars line with
target-id set `{100}`. -/
theorem C3_parse_failure_never_matches_witness :
    (42 ≤ badBarsLine.length ∧ badBarsLine.get? 16 = some 'T' ∧
      parseIntPy (strip (pySlice badBarsLine 0 6)) = none ∧
      parseIntPy (strip (pySlice badBarsLine 7 12)) = none ∧
      (0 : ℤ) ∉ ({100} : Finset ℤ)) ∧
    bar_match {100} badBarsLine = false ∧
      dataStep ({100} : Finset ℤ) badBarsLine = badBarsLine :=
  ⟨by decide, C3_parse_failure_never_matches {100} badBarsLine (by decide) (by decide)
    (by decide) (by decide) (by decide)⟩

/-- Matched data line with both windows A and B blank and both source windows
C and D containing "   500". -/
def doubleBlankLine : Line :=
  ("100    22222    T" ++ "      " ++ "   500" ++ "      " ++ "   500" ++ "Z").toList

/-- C4: on every matched data line (length at least 42, 'T' at offset 16),
whenever window A (17-22) is blank and the right-trimmed window C (23-28)
parses as v, the text written into window A is the first 6 characters of the
fixed-point rendering of v/50 with exactly 6 digits after the decimal point,
right-padded with spaces to width 6 if shorter; the same rule relates window
D (35-40) to window B (29-34). -/
theorem C4_truncated_fixed_point_write (bars : Finset ℤ) (line : Line)
    (h42 : 42 ≤ line.length) (hT : line.get? 16 = some 'T')
    (hm : bar_match bars line = true) :
    (∀ v : ℚ, is_blank (pySlice line 17 23) = true →
      parseFloatPy (rtrim (pySlice line 23 29)) = some v →
      pySlice (dataStep bars line) 17 23 = padRight6 ((fmt6 (v / 50)).take 6)) ∧
    (∀ w : ℚ, is_blank (pySlice line 29 35) = true →
      parseFloatPy (rtrim (pySlice line 35 41)) = some w →
      pySlice (dataStep bars line) 29 35 = padRight6 ((fmt6 (w / 50)).take 6)) := by
  constructor
  · intro v hb hv
    exact dataStep_sliceA_written h42 hT hm hb hv
  · intro w hb hv
    exact dataStep_sliceB_written h42 hT hm hb hv

/-- Witness for C4 at a concrete matched line with both windows blank. -/
theorem C4_truncated_fixed_point_write_witness :
    (42 ≤ doubleBlankLine.length ∧ doubleBlankLine.get? 16 = some 'T' ∧
      bar_match {100} doubleBlankLine = true) ∧
    ((∀ v : ℚ, is_blank (pySlice doubleBlankLine 17 23) = true →
      parseFloatPy (rtrim (pySlice doubleBlankLine 23 29)) = some v →
      pySlice (dataStep ({100} : Finset ℤ) doubleBlankLine) 17 23 =
        padRight6 ((fmt6 (v / 50)).take 6)) ∧
    (∀ w : ℚ, is_blank (pySlice doubleBlankLine 29 35) = true →
      parseFloatPy (rtrim (pySlice doubleBlankLine 35 41)) = some w →
      pySlice (dataStep ({100} : Finset ℤ) doubleBlankLine) 29 35 =
        padRight6 ((fmt6 (w / 50)).take 6))) :=
  ⟨by decide, C4_truncated_fixed_point_write {100} doubleBlankLine (by decide)
    (by decide) (by decide)⟩

/-- Matched data line whose window A is already non-blank and whose window B
is blank with a parseable window D. -/
def nonBlankALine : Line :=
  ("100    22222    T" ++ "1.2345" ++ "   500" ++ "      " ++ "   500" ++ "Z").toList

/-- C6: on every data line of length at least 42 with 'T' at offset 16:
window A, when not entirely blank, is left unchanged regardless of match
status; window B is still recomputed independently when it is blank and
window D parses; and re-running the transform leaves an already-rewritten
(now non-blank) window A unchanged. -/
theorem C6_nonblank_window_stability (bars : Finset ℤ) (line : Line)
    (h42 : 42 ≤ line.length) (hT : line.get? 16 = some 'T') :
    (is_blank (pySlice line 17 23) = false →
      pySlice (dataStep bars line) 17 23 = pySlice line 17 23) ∧
    (∀ w : ℚ, bar_match bars line = true → is_blank (pySlice line 29 35) = true →
      parseFloatPy (rtrim (pySlice line 35 41)) = some w →
      pySlice (dataStep bars line) 29 35 = padRight6 (format_float_custom (w / 50))) ∧
    (∀ v : ℚ, bar_match bars line = true → is_blank (pySlice line 17 23) = true →
      parseFloatPy (rtrim (pySlice line 23 29)) = some v →
      pySlice (dataStep bars (dataStep bars line)) 17 23 =
        pySlice (dataStep bars line) 17 23) := by
  refine ⟨?_, ?_, ?_⟩
  · intro hbA
    exact dataStep_sliceA_preserved h42 hT hbA
  · intro w hm hbB hvD
    exact dataStep_sliceB_written h42 hT hm hbB hvD
  · intro v hm hbA hvC
    have h42s : 42 ≤ (dataStep bars line).length := by
      rw [length_dataStep]
      exact h42
    have hTs : (dataStep bars line).get? 16 = some 'T' := by
      rw [dataStep_get?_16]
      exact hT
    have hbAs : is_blank (pySlice (dataStep bars line) 17 23) = false := by
      rw [dataStep_sliceA_written h42 hT hm hbA hvC]
      exact is_blank_padRight6_format _
    exact dataStep_sliceA_preserved h42s hTs hbAs

/-- Witness for C6 at a concrete matched line with non-blank window A and
blank window B. -/
theorem C6_nonblank_window_stability_witness :
    (42 ≤ nonBlankALine.length ∧ nonBlankALine.get? 16 = some 'T') ∧
    ((is_blank (pySlice nonBlankALine 17 23) = false →
      pySlice (dataStep ({100} : Finset ℤ) nonBlankALine) 17 23 =
        pySlice nonBlankALine 17 23) ∧
    (∀ w : ℚ, bar_match {100} nonBlankALine = true →
      is_blank (pySlice nonBlankALine 29 35) = true →
      parseFloatPy (rtrim (pySlice nonBlankALine 35 41)) = some w →
      pySlice (dataStep ({100} : Finset ℤ) nonBlankALine) 29 35 =
        padRight6 (format_float_custom (w / 50))) ∧
    (∀ v : ℚ, bar_match {100} nonBlankALine = true →
      is_blank (pySlice nonBlankALine 17 23) = true →
      parseFloatPy (rtrim (pySlice nonBlankALine 23 29)) = some v →
      pySlice (dataStep ({100} : Finset ℤ)
          (dataStep ({100} : Finset ℤ) nonBlankALine)) 17 23 =
        pySlice (dataStep ({100} : Finset ℤ) nonBlankALine) 17 23)) :=
  ⟨by decide, C6_nonblank_window_stability {100} nonBlankALine (by decide) (by decide)⟩

/-- Worked-example line variant whose windows B and D trigger the second
rewrite as well. -/
def blankBLine : Line :=
  ("100    33333    T" ++ "      " ++ "   500" ++ "      " ++ "   500" ++ "Z").toList

/-- C7 counterexample: a line satisfying all conditions of the claim (offsets
0-5 = "100   ", 'T' at 16, blank window A, window C = "   500") whose window
B is also blank with window D = "   500".  The claim asserts every character
outside window A is unchanged, but the code also rewrites window B: the
character at offset 29 changes from ' ' to '1'. -/
theorem C7_blank_B_counterexample :
    (dataStep ({100} : Finset ℤ) blankBLine).get? 29 ≠ blankBLine.get? 29 := by
  have hs := @dataStep_sliceB_written {100} blankBLine 500
    (by decide) (by decide) (by decide) (by decide) (by decide)
  rw [format_float_custom_ten,
    show padRight6 ("10.000".toList) = "10.000".toList from by decide] at hs
  have h0 : (dataStep ({100} : Finset ℤ) blankBLine).get? 29 =
      (pySlice (dataStep ({100} : Finset ℤ) blankBLine) 29 35).get? 0 := by
    rw [pySlice_get?]
    norm_num
  rw [h0, hs, show blankBLine.get? 29 = some ' ' from by decide]
  decide

/-- C7 (amended): with target ids `{100}`, for every data-state line of
length at least 42 whose offsets 0-5 are "100   ", offset 16 is 'T', window A
(17-22) is all spaces and window C (23-28) is "   500", provided additionally
that window B (29-34) is not entirely blank or window D's (35-40)
right-trimmed text fails float parsing, the output line has window A equal to
"10.000" and every other character equal to the input line's. -/
theorem C7_worked_example (line : Line)
    (h42 : 42 ≤ line.length)
    (hbar : pySlice line 0 6 = "100   ".toList)
    (hT : line.get? 16 = some 'T')
    (hbA : is_blank (pySlice line 17 23) = true)
    (hC : pySlice line 23 29 = "   500".toList)
    (hB : is_blank (pySlice line 29 35) = false ∨
      parseFloatPy (rtrim (pySlice line 35 41)) = none) :
    pySlice (dataStep ({100} : Finset ℤ) line) 17 23 = "10.000".toList ∧
    ∀ j : Nat, j < 17 ∨ 23 ≤ j →
      (dataStep ({100} : Finset ℤ) line).get? j = line.get? j := by
  have hm : bar_match {100} line = true := by
    unfold bar_match bar1
    rw [hbar, show (parseIntPy (strip ("100   ".toList))).getD 0 = (100 : ℤ) from by decide]
    simp
  have hvC : parseFloatPy (rtrim (pySlice line 23 29)) = some (500 : ℚ) := by
    rw [hC]
    decide
  constructor
  · rw [dataStep_sliceA_written h42 hT hm hbA hvC, format_float_custom_ten]
    decide
  · intro j hj
    rcases hj with hj | hj
    · exact dataStep_get?_out (by omega)
    · by_cases h29 : j < 29
      · exact dataStep_get?_out (by omega)
      · by_cases h35 : j < 35
        · exact dataStep_get?_B_preserved h42 hT hB (by omega) (by omega)
        · exact dataStep_get?_out (by omega)

/-- Data line of the worked example with a non-blank window B. -/
def workedLine : Line :=
  ("100    22222    T" ++ "      " ++ "   500" ++ "AAAAAA" ++ "BBBBBB" ++ "Z").toList

/-- Witness for C7 (amended) at a concrete line with non-blank window B. -/
theorem C7_worked_example_witness :
    (42 ≤ workedLine.length ∧ pySlice workedLine 0 6 = "100   ".toList ∧
      workedLine.get? 16 = some 'T' ∧ is_blank (pySlice workedLine 17 23) = true ∧
      pySlice workedLine 23 29 = "   500".toList ∧
      is_blank (pySlice workedLine 29 35) = false) ∧
    (pySlice (dataStep ({100} : Finset ℤ) workedLine) 17 23 = "10.000".toList ∧
    ∀ j : Nat, j < 17 ∨ 23 ≤ j →
      (dataStep ({100} : Finset ℤ) workedLine).get? j = workedLine.get? j) :=
  ⟨by decide, C7_worked_example workedLine (by decide) (by decide) (by decide)
    (by decide) (by decide) (Or.inl (by decide))⟩
